import Mathlib

/-!
Verification of `merge_summary.py`, a command-line utility that merges two
ULTRA summary XML reports.  The Python source is embedded shallowly:

* machine floats become exact rationals `ℚ` (with `Real.sqrt` for the one
  square root the code takes);
* Python ints become `ℤ` at the raw (pre-validation) level and `ℕ` after
  validation has established non-negativity;
* functions that `raise` become `Except`/`Option`-valued functions;
* the XML tree handled by `embed_xml_signature` is modelled as the triple
  (text before the checksum, checksum text, text after the checksum), since
  `xml.etree` serialisation round-trips such documents unchanged;
* `zlib.crc32` is the standard reflected CRC-32 (polynomial 0xEDB88320,
  initial and final XOR 0xFFFFFFFF), spelled out bit by bit below.
-/

/-! ## CRC-32 and the signing protocol (`compute_crc32`, `embed_xml_signature`) -/
/-- Number of hex digits of the checksum (`CHECKSUM_LENGTH = 8`). -/
def CHECKSUM_LENGTH : ℕ := 8

/-- One shift-and-conditionally-xor step of the reflected CRC-32. -/
def crcStep (c : ℕ) : ℕ :=
  if c % 2 = 1 then (c / 2) ^^^ 0xEDB88320 else c / 2

/-- Feed one byte into the CRC state: xor it in, then do eight bit steps. -/
def crcUpdate (c b : ℕ) : ℕ :=
  (crcStep ∘ crcStep ∘ crcStep ∘ crcStep ∘ crcStep ∘ crcStep ∘ crcStep ∘ crcStep)
    (c ^^^ b)

/-- `zlib.crc32` over a byte list: init `0xFFFFFFFF`, final XOR `0xFFFFFFFF`,
masked to 32 bits as the Python code does with `& 0xFFFFFFFF`. -/
def crc32 (data : List ℕ) : ℕ :=
  ((data.foldl crcUpdate 0xFFFFFFFF) ^^^ 0xFFFFFFFF) % 4294967296

/-- UTF-8 encoding of a single character (code point to byte list). -/
def charUtf8 (c : Char) : List ℕ :=
  let n := c.toNat
  if n < 0x80 then [n]
  else if n < 0x800 then [0xC0 + n / 64, 0x80 + n % 64]
  else if n < 0x10000 then
    [0xE0 + n / 4096, 0x80 + n / 64 % 64, 0x80 + n % 64]
  else
    [0xF0 + n / 262144, 0x80 + n / 4096 % 64, 0x80 + n / 64 % 64, 0x80 + n % 64]

/-- UTF-8 encoding of a string, as in Python's `str.encode("utf-8")`. -/
def utf8Bytes (s : String) : List ℕ :=
  s.data.flatMap charUtf8

/-- Uppercase hex digit for a value below 16. -/
def hexDigit (n : ℕ) : Char :=
  if n < 10 then Char.ofNat (48 + n) else Char.ofNat (55 + n)

/-- Fixed-width, zero-padded, uppercase hexadecimal rendering
(`f"{crc:08X}"` for values below `2^32`). -/
def toHex8 (n : ℕ) : String :=
  String.mk ((List.range CHECKSUM_LENGTH).map fun i =>
    hexDigit (n / 16 ^ (CHECKSUM_LENGTH - 1 - i) % 16))

/-- `compute_crc32(data)`: CRC-32 of the UTF-8 bytes, rendered as eight
uppercase hex digits. -/
def compute_crc32 (data : String) : String :=
  toHex8 (crc32 (utf8Bytes data))

/-- The serialized XML document as seen by `embed_xml_signature`: the text of
the `<checksum>` node together with the surrounding text, which serialisation
leaves untouched when only the checksum text is reassigned. -/
structure XmlDoc where
  pre : String
  checksum : String
  post : String
deriving DecidableEq

/-- `ET.tostring`: concatenate the parts back into the document text. -/
def XmlDoc.tostring (d : XmlDoc) : String :=
  d.pre ++ d.checksum ++ d.post

/-- The all-zero placeholder `"0" * CHECKSUM_LENGTH`. -/
def zeros8 : String := "00000000"

/-- `embed_xml_signature`: set the checksum node to the placeholder,
serialize, CRC that rendering, store the result in the checksum node and
re-serialize (here: return the final document). -/
def embed_xml_signature (d : XmlDoc) : XmlDoc :=
  let d0 : XmlDoc := { d with checksum := zeros8 }
  { d0 with checksum := compute_crc32 d0.tostring }

/-! ## Statistics combiners (`combine_mean`, `combine_std`) -/
/-- `combine_mean(m1, n1, m2, n2)`: pooled mean; `None` models the
`ValueError` raised when the total count is zero. -/
def combine_mean (m1 : ℚ) (n1 : ℕ) (m2 : ℚ) (n2 : ℕ) : Option ℚ :=
  if n1 + n2 = 0 then none
  else some ((n1 * m1 + n2 * m2) / (n1 + n2 : ℕ))

/-- `combine_std(m1, s1, n1, m2, s2, n2)`: unbiased pooled standard
deviation.  `None` models the `ValueError` for total count 0; the value `0.0`
is returned for total count 1; otherwise the square root of the pooled
variance.  Note `max(n1 - 1, 0)` is truncated subtraction on `ℕ`. -/
noncomputable def combine_std (m1 s1 : ℚ) (n1 : ℕ) (m2 s2 : ℚ) (n2 : ℕ) :
    Option ℝ :=
  if n1 + n2 = 0 then none
  else if n1 + n2 = 1 then some 0
  else
    match combine_mean m1 n1 m2 n2 with
    | none => none
    | some M =>
        some (Real.sqrt
          ((((n1 - 1 : ℕ) * (s1 * s1) + (n2 - 1 : ℕ) * (s2 * s2)
              + n1 * (m1 - M) ^ 2 + n2 * (m2 - M) ^ 2)
            / ((n1 + n2 - 1 : ℕ) : ℚ) : ℚ) : ℝ))

/-! ## Data model: reports, elite blocks, merged reports -/
/-- One `<elite><run>` entry after validation: id, optional fitness and
accuracy.  In the rational embedding a Python non-finite float does not
exist, so the code's "missing or non-finite" sentinel is carried by
`Option.none`. -/
structure EliteItem where
  id : ℕ
  fitness : Option ℚ
  accuracy : Option ℚ
deriving DecidableEq

/-- A validated `<elite>` block: percentile fraction and its items. -/
structure Elite where
  frac : ℚ
  items : List EliteItem
deriving DecidableEq

/-- A validated report, as returned by `parse_ultra_file`. -/
structure Report where
  runs : ℕ
  elapsed : ℕ
  success : ℚ
  mean : ℚ
  std : ℚ
  best_fitness : ℚ
  best_accuracy : ℚ
  best_run : ℕ
  best_code : String
  solutions : List ℕ
  elite : Option Elite
deriving DecidableEq

/-- The merged report assembled by `merge_ultra_files` before it is turned
into XML.  The pooled standard deviation is a real number (a square root). -/
structure Merged where
  runs : ℕ
  elapsed : ℕ
  success : ℚ
  mean : ℚ
  std : ℝ
  best_fitness : ℚ
  best_accuracy : ℚ
  best_run : ℕ
  best_code : String
  solutions : List ℕ
  elite : Option Elite

/-! ## Elite ranking and selection -/
/-- `elite_key(item)`: the pair (fitness, accuracy), with a missing value
playing the role of `float("-inf")`. -/
def elite_key (it : EliteItem) : Option ℚ × Option ℚ :=
  (it.fitness, it.accuracy)

/-- Order on the key components: `none` (the `-inf` sentinel) is below every
rational. -/
def obLe : Option ℚ → Option ℚ → Bool
  | none, _ => true
  | some _, none => false
  | some a, some b => decide (a ≤ b)

/-- Lexicographic comparison of two keys, exactly Python's tuple `<=`. -/
def keyLe (p q : Option ℚ × Option ℚ) : Bool :=
  if p.1 = q.1 then obLe p.2 q.2 else obLe p.1 q.1

/-- Comparator realising `sorted(items, key=elite_key, reverse=True)`:
`x` may stay before `y` exactly when the key of `y` is at most the key of
`x`; on ties both directions hold, so a stable sort keeps the input order. -/
def eliteGe (x y : EliteItem) : Bool :=
  keyLe (elite_key y) (elite_key x)

/-- Insert into a sorted list, keeping earlier elements first on ties. -/
def insertLe (le : EliteItem → EliteItem → Bool) (x : EliteItem) :
    List EliteItem → List EliteItem
  | [] => [x]
  | y :: ys => if le x y then x :: y :: ys else y :: insertLe le x ys

/-- Stable insertion sort; with `eliteGe` it is the stable descending sort
performed by Python's `sorted(..., reverse=True)`. -/
def sortStable (le : EliteItem → EliteItem → Bool) :
    List EliteItem → List EliteItem
  | [] => []
  | x :: xs => insertLe le x (sortStable le xs)

/-- Python's `int()` truncation of a rational toward zero. -/
def truncQ (q : ℚ) : ℤ :=
  q.num.tdiv q.den

/-- The selection loop of `merge_ultra_files`: walk the sorted candidates,
skip ids already seen, append the rest, stop once `n` items are picked. -/
def pickLoop (n : ℕ) : List EliteItem → List ℕ → List EliteItem →
    List EliteItem
  | [], _, acc => acc
  | it :: rest, seen, acc =>
      if it.id ∈ seen then pickLoop n rest seen acc
      else if n ≤ acc.length + 1 then acc ++ [it]
      else pickLoop n rest (it.id :: seen) (acc ++ [it])

/-- Offsetting one elite item into the merged index space. -/
def offsetItem (off : ℕ) (it : EliteItem) : EliteItem :=
  { it with id := it.id + off }

/-- The elite block built by `merge_ultra_files` from the shared fraction,
the candidate pool and the merged run count. -/
def mergeElite (frac : ℚ) (pool : List EliteItem) (runs : ℕ) : Elite :=
  if frac = 0 then { frac := frac, items := [] }
  else
    let n : ℤ := max 1 (min (truncQ ((runs : ℚ) * frac)) (runs : ℤ))
    { frac := frac, items := pickLoop n.toNat (sortStable eliteGe pool) [] [] }

/-- Items of an optional elite block (empty when the block is absent). -/
def itemsOf : Option Elite → List EliteItem
  | none => []
  | some e => e.items

/-! ## The merge (`merge_ultra_files`, without file I/O) -/
/-- `merge_ultra_files` on two already-validated reports.  `Except.error`
models the `UltraParseError`/`ValueError` raises; in the script an error
propagates before `output.write_text`, so an error value means no output
file is written. -/
noncomputable def mergeReport (A B : Report) : Except String Merged :=
  let runs := A.runs + B.runs
  if runs = 0 then
    .error "Merged runs is 0; cannot compute merged statistics"
  else
    match combine_mean A.mean A.runs B.mean B.runs,
          combine_std A.mean A.std A.runs B.mean B.std B.runs with
    | some mean, some std =>
        let success := (A.success * A.runs + B.success * B.runs) / (runs : ℚ)
        let bestA := B.best_fitness ≤ A.best_fitness
        let solutions := A.solutions ++ B.solutions.map (· + A.runs)
        let base : Merged :=
          { runs := runs
            elapsed := A.elapsed + B.elapsed
            success := success
            mean := mean
            std := std
            best_fitness := if bestA then A.best_fitness else B.best_fitness
            best_accuracy := if bestA then A.best_accuracy else B.best_accuracy
            best_run := if bestA then A.best_run else B.best_run + A.runs
            best_code := if bestA then A.best_code else B.best_code
            solutions := solutions
            elite := none }
        match A.elite, B.elite with
        | none, none => .ok base
        | some eA, some eB =>
            if |eA.frac - eB.frac| > 1 / 1000000000000 then
              .error ("Elite percentile mismatch: " ++ toString eA.frac
                      ++ " vs " ++ toString eB.frac)
            else
              .ok { base with elite := some (mergeElite eA.frac (eA.items ++ eB.items.map (offsetItem A.runs)) runs) }
        | some eA, none =>
            .ok { base with elite := some (mergeElite eA.frac eA.items runs) }
        | none, some eB =>
            .ok { base with elite := some (mergeElite eB.frac (eB.items.map (offsetItem A.runs)) runs) }
    | _, _ => .error "Cannot combine means with total count 0"

/-! ## Raw input and validation (`parse_ultra_file`, `parse_elite`) -/
/-- One `<elite><run>` entry before validation: the id as a Python int. -/
structure RawItem where
  id : ℤ
  fitness : Option ℚ
  accuracy : Option ℚ
deriving DecidableEq

/-- The `<elite>` block before validation: the raw `percentile` number and
the raw items. -/
structure RawElite where
  percentile : ℚ
  items : List RawItem
deriving DecidableEq

/-- A summary file whose fields have been located and converted to numbers
(the well-formedness and `_require_*` stages of `parse_ultra_file`), but not
yet range-checked. -/
structure RawReport where
  runs : ℤ
  elapsed : ℤ
  success : ℚ
  mean : ℚ
  std : ℚ
  best_fitness : ℚ
  best_accuracy : ℚ
  best_run : ℤ
  best_code : String
  solutions : List ℤ
  elite : Option RawElite
deriving DecidableEq

/-- `_parse_percentile_attr` plus the id checks of `parse_elite`, on a raw
elite block; errors carry the file name exactly as the Python f-strings do. -/
def parse_elite (file : String) (runs : ℤ) (e : RawElite) :
    Except String Elite :=
  let frac := if 1 < e.percentile then e.percentile / 100 else e.percentile
  if ¬ (0 ≤ frac ∧ frac ≤ 1) then
    .error (file ++ ": elite percentile out of range: " ++ toString e.percentile)
  else if e.items.any (fun it => decide (it.id < 0 ∨ runs ≤ it.id)) then
    .error (file ++ ": elite run id out of range")
  else if ¬ (e.items.map RawItem.id).Nodup then
    .error (file ++ ": duplicate ids in <elite>")
  else
    .ok { frac := frac
          items := e.items.map fun it =>
            { id := it.id.toNat, fitness := it.fitness, accuracy := it.accuracy } }

/-- The validation pass of `parse_ultra_file`, check for check in source
order; an `Except.error` carries the message of the `UltraParseError` that
the Python code raises at the corresponding line. -/
def parse_ultra_file (file : String) (r : RawReport) : Except String Report :=
  if r.runs ≤ 0 then .error (file ++ ": runs must be positive")
  else if r.elapsed < 0 then .error (file ++ ": elapsed_time must be non-negative")
  else if ¬ (0 ≤ r.success ∧ r.success ≤ 1) then
    .error (file ++ ": success_rate out of range: " ++ toString r.success)
  else if r.std < 0 then
    .error (file ++ ": standard_deviation must be finite and non-negative, got "
            ++ toString r.std)
  else if r.best_run < 0 ∨ r.runs ≤ r.best_run then
    .error (file ++ ": best/run out of range: " ++ toString r.best_run)
  else if r.best_code = "" then .error (file ++ ": node best/code is empty")
  else if r.solutions.any (fun s => decide (s < 0)) then
    .error (file ++ ": solutions contains negative run index")
  else if r.solutions.any (fun s => decide (r.runs ≤ s)) then
    .error (file ++ ": solutions contains run index >= runs")
  else if ¬ r.solutions.Nodup then
    .error (file ++ ": duplicate run indices in solutions")
  else
    let base : Report :=
      { runs := r.runs.toNat
        elapsed := r.elapsed.toNat
        success := r.success
        mean := r.mean
        std := r.std
        best_fitness := r.best_fitness
        best_accuracy := r.best_accuracy
        best_run := r.best_run.toNat
        best_code := r.best_code
        solutions := r.solutions.map Int.toNat
        elite := none }
    match r.elite with
    | none => .ok base
    | some re =>
        match parse_elite file r.runs re with
        | .error e => .error e
        | .ok el => .ok { base with elite := some el }

/-- The whole pipeline of `merge_ultra_files` on two raw inputs: parse the
first file, parse the second file, merge.  The script writes the output file
only after all of this has succeeded, so `Except.error` means the output
path is untouched. -/
noncomputable def merge_ultra_files (f1 : String) (r1 : RawReport)
    (f2 : String) (r2 : RawReport) : Except String Merged :=
  match parse_ultra_file f1 r1 with
  | .error e => .error e
  | .ok A =>
      match parse_ultra_file f2 r2 with
      | .error e => .error e
      | .ok B => mergeReport A B

/-! ## Validity of a report -/
/-- Invariants that `parse_elite` guarantees for an elite block. -/
def ValidElite (runs : ℕ) (e : Elite) : Prop :=
  0 ≤ e.frac ∧ e.frac ≤ 1 ∧ (∀ it ∈ e.items, it.id < runs) ∧
    (e.items.map EliteItem.id).Nodup

/-- Invariants that `parse_ultra_file` guarantees for a report.  These are
exactly the properties a parsed file satisfies: positive run count, success
rate in the unit interval, non-negative standard deviation, in-range best
run, non-empty code, in-range duplicate-free solutions, and a valid
optional elite block. -/
def Valid (r : Report) : Prop :=
  0 < r.runs ∧ 0 ≤ r.success ∧ r.success ≤ 1 ∧ 0 ≤ r.std ∧
    r.best_run < r.runs ∧ r.best_code ≠ "" ∧
    (∀ s ∈ r.solutions, s < r.runs) ∧ r.solutions.Nodup ∧
    (∀ e ∈ r.elite, ValidElite r.runs e)

instance (runs : ℕ) (e : Elite) : Decidable (ValidElite runs e) := by
  unfold ValidElite; infer_instance

instance (r : Report) : Decidable (Valid r) := by
  unfold Valid; infer_instance

/-- The merged record before the optional elite block is attached, with the
pooled standard deviation abstracted into a parameter. -/
def mergeBase (A B : Report) (sd : ℝ) : Merged :=
  { runs := A.runs + B.runs
    elapsed := A.elapsed + B.elapsed
    success := (A.success * A.runs + B.success * B.runs) / ((A.runs + B.runs : ℕ) : ℚ)
    mean := (A.runs * A.mean + B.runs * B.mean) / ((A.runs + B.runs : ℕ) : ℚ)
    std := sd
    best_fitness := if B.best_fitness ≤ A.best_fitness then A.best_fitness else B.best_fitness
    best_accuracy := if B.best_fitness ≤ A.best_fitness then A.best_accuracy else B.best_accuracy
    best_run := if B.best_fitness ≤ A.best_fitness then A.best_run else B.best_run + A.runs
    best_code := if B.best_fitness ≤ A.best_fitness then A.best_code else B.best_code
    solutions := A.solutions ++ B.solutions.map (· + A.runs)
    elite := none }

/-! ## Concrete example reports (spec section 8 "best selection" scenario) -/
/-- Example report A: 10 runs, best fitness 5 at run 3, no elite block. -/
def exA : Report :=
  { runs := 10, elapsed := 3, success := 0, mean := 0, std := 0
    best_fitness := 5, best_accuracy := 1, best_run := 3, best_code := "codeA"
    solutions := [0, 4], elite := none }

/-- Example report B: 5 runs, best fitness 8 at run 2, no elite block. -/
def exB : Report :=
  { runs := 5, elapsed := 4, success := 1, mean := 0, std := 0
    best_fitness := 8, best_accuracy := 0, best_run := 2, best_code := "codeB"
    solutions := [1], elite := none }

/-- The merged report for `exA` and `exB`. -/
noncomputable def exM1 : Merged := mergeBase exA exB (Real.sqrt ((0 : ℚ) : ℝ))

/-- Report with an elite block at percentile fraction `1/20` (5%). -/
def exMA : Report :=
  { runs := 1, elapsed := 0, success := 0, mean := 0, std := 0
    best_fitness := 0, best_accuracy := 0, best_run := 0, best_code := "a"
    solutions := [], elite := some { frac := 1/20, items := [] } }

/-- Report with an elite block at percentile fraction `1/10` (10%). -/
def exMB : Report :=
  { runs := 1, elapsed := 0, success := 0, mean := 0, std := 0
    best_fitness := 0, best_accuracy := 0, best_run := 0, best_code := "b"
    solutions := [], elite := some { frac := 1/10, items := [] } }

/-- Raw input whose success rate field reads `3/2 = 1.5`. -/
def exRawBad : RawReport :=
  { runs := 1, elapsed := 0, success := 3/2, mean := 0, std := 0
    best_fitness := 0, best_accuracy := 0, best_run := 0, best_code := "a"
    solutions := [], elite := none }

/-- Raw input that is entirely valid. -/
def exRawGood : RawReport :=
  { runs := 1, elapsed := 0, success := 0, mean := 0, std := 0
    best_fitness := 0, best_accuracy := 0, best_run := 0, best_code := "b"
    solutions := [], elite := none }

/-! ## The pick loop as take-of-dedup -/
/-- First-occurrence-per-id filter: the "unique-by-id" view of a list,
given the set of ids already seen. -/
def dedupIds (seen : List ℕ) : List EliteItem → List EliteItem
  | [] => []
  | it :: rest =>
      if it.id ∈ seen then dedupIds seen rest
      else it :: dedupIds (it.id :: seen) rest

/-! ## Concrete elite example (spec section 8 elite merge scenario) -/
/-- Example report with an elite block: 2 runs, percentile fraction 1/2,
one elite item (run 0, fitness 10). -/
def exEA : Report :=
  { runs := 2, elapsed := 1, success := 0, mean := 0, std := 0
    best_fitness := 1, best_accuracy := 0, best_run := 0, best_code := "a"
    solutions := [0], elite := some { frac := 1/2, items := [⟨0, some 10, none⟩] } }

/-- Example report with an elite block: 2 runs, percentile fraction 1/2,
one elite item (run 0, fitness 20). -/
def exEB : Report :=
  { runs := 2, elapsed := 2, success := 0, mean := 0, std := 0
    best_fitness := 0, best_accuracy := 0, best_run := 1, best_code := "b"
    solutions := [1], elite := some { frac := 1/2, items := [⟨0, some 20, none⟩] } }

/-- The merged report for `exEA` and `exEB`: 4 runs, elite of size
`floor(4 * 1/2) = 2`, B's item offset to id 2 ranked first. -/
noncomputable def exME : Merged :=
  { mergeBase exEA exEB (Real.sqrt ((0 : ℚ) : ℝ)) with
    elite := some ⟨1/2, [⟨2, some 20, none⟩, ⟨0, some 10, none⟩]⟩ }

/-! ## Helper lemmas -/
lemma toHex8_length (n : ℕ) : (toHex8 n).length = CHECKSUM_LENGTH := by
  simp [toHex8, String.length]

lemma combine_mean_pos (m1 m2 : ℚ) (n1 n2 : ℕ) (h : n1 + n2 ≠ 0) :
    combine_mean m1 n1 m2 n2 = some ((n1 * m1 + n2 * m2) / (n1 + n2 : ℕ)) := by
  simp [combine_mean, h]

lemma combine_std_isSome (m1 s1 m2 s2 : ℚ) (n1 n2 : ℕ) (h : n1 + n2 ≠ 0) :
    ∃ r, combine_std m1 s1 n1 m2 s2 n2 = some r := by
  by_cases h1 : n1 + n2 = 1
  · exact ⟨0, by simp [combine_std, h, h1]⟩
  · refine ⟨Real.sqrt ((((n1 - 1 : ℕ) * (s1 * s1) + (n2 - 1 : ℕ) * (s2 * s2)
        + n1 * (m1 - (n1 * m1 + n2 * m2) / (n1 + n2 : ℕ)) ^ 2
        + n2 * (m2 - (n1 * m1 + n2 * m2) / (n1 + n2 : ℕ)) ^ 2)
      / ((n1 + n2 - 1 : ℕ) : ℚ) : ℚ) : ℝ), ?_⟩
    unfold combine_std
    rw [if_neg h, if_neg h1, combine_mean_pos m1 m2 n1 n2 h]

lemma mergeReport_eq (A B : Report) (h0 : A.runs + B.runs ≠ 0) (sd : ℝ)
    (hsd : combine_std A.mean A.std A.runs B.mean B.std B.runs = some sd) :
    mergeReport A B =
      match A.elite, B.elite with
      | none, none => .ok (mergeBase A B sd)
      | some eA, some eB =>
          if |eA.frac - eB.frac| > 1 / 1000000000000 then
            .error ("Elite percentile mismatch: " ++ toString eA.frac
                    ++ " vs " ++ toString eB.frac)
          else
            .ok { mergeBase A B sd with elite := some (mergeElite eA.frac (eA.items ++ eB.items.map (offsetItem A.runs)) (A.runs + B.runs)) }
      | some eA, none =>
          .ok { mergeBase A B sd with elite := some (mergeElite eA.frac eA.items (A.runs + B.runs)) }
      | none, some eB =>
          .ok { mergeBase A B sd with elite := some (mergeElite eB.frac (eB.items.map (offsetItem A.runs)) (A.runs + B.runs)) } := by
  unfold mergeReport mergeBase
  simp only [if_neg h0, combine_mean_pos A.mean B.mean A.runs B.runs h0, hsd]

lemma mergeReport_ok_runs_ne {A B : Report} {m : Merged}
    (h : mergeReport A B = .ok m) : A.runs + B.runs ≠ 0 := by
  intro h0
  simp [mergeReport, h0] at h

lemma mergeReport_ok_base {A B : Report} {m : Merged}
    (h : mergeReport A B = .ok m) : ∃ sd,
    combine_std A.mean A.std A.runs B.mean B.std B.runs = some sd ∧
    m.runs = A.runs + B.runs ∧
    m.elapsed = A.elapsed + B.elapsed ∧
    m.solutions = A.solutions ++ B.solutions.map (· + A.runs) ∧
    m.best_fitness = (if B.best_fitness ≤ A.best_fitness then A.best_fitness else B.best_fitness) ∧
    m.best_accuracy = (if B.best_fitness ≤ A.best_fitness then A.best_accuracy else B.best_accuracy) ∧
    m.best_run = (if B.best_fitness ≤ A.best_fitness then A.best_run else B.best_run + A.runs) ∧
    m.best_code = (if B.best_fitness ≤ A.best_fitness then A.best_code else B.best_code) := by
  have h0 := mergeReport_ok_runs_ne h
  obtain ⟨sd, hsd⟩ :=
    combine_std_isSome A.mean A.std B.mean B.std A.runs B.runs h0
  refine ⟨sd, hsd, ?_⟩
  rw [mergeReport_eq A B h0 sd hsd] at h
  rcases hEA : A.elite with _ | eA <;> rcases hEB : B.elite with _ | eB <;>
    simp only [hEA, hEB] at h
  · rw [Except.ok.injEq] at h
    subst h
    simp [mergeBase]
  · rw [Except.ok.injEq] at h
    subst h
    simp [mergeBase]
  · rw [Except.ok.injEq] at h
    subst h
    simp [mergeBase]
  · by_cases hf : |eA.frac - eB.frac| > 1 / 1000000000000
    · rw [if_pos hf] at h
      exact absurd h (by simp)
    · rw [if_neg hf, Except.ok.injEq] at h
      subst h
      simp [mergeBase]

lemma merge_ex1 : mergeReport exA exB = .ok exM1 := by
  have hsd : combine_std exA.mean exA.std exA.runs exB.mean exB.std exB.runs
      = some (Real.sqrt ((0 : ℚ) : ℝ)) := by
    norm_num [combine_std, combine_mean, exA, exB]
  rw [mergeReport_eq exA exB (by decide) _ hsd]
  rfl

lemma valid_exA : Valid exA := by decide

lemma valid_exB : Valid exB := by decide

lemma abs_ex_fracs : |(1/20 : ℚ) - 1/10| > 1 / 1000000000000 := by
  have h : (1/20 : ℚ) - 1/10 = -(1/20) := by norm_num
  rw [h, abs_neg, abs_of_nonneg (by norm_num : (0:ℚ) ≤ 1/20)]
  norm_num

lemma valid_exMA : Valid exMA := by
  refine ⟨by decide, by decide, by decide, by decide, by decide, by decide,
    by decide, by decide, ?_⟩
  intro e he
  simp only [exMA, Option.mem_def, Option.some.injEq] at he
  subst he
  exact ⟨by norm_num, by norm_num, by simp, by simp⟩

lemma valid_exMB : Valid exMB := by
  refine ⟨by decide, by decide, by decide, by decide, by decide, by decide,
    by decide, by decide, ?_⟩
  intro e he
  simp only [exMB, Option.mem_def, Option.some.injEq] at he
  subst he
  exact ⟨by norm_num, by norm_num, by simp, by simp⟩

lemma pickLoop_eq (n : ℕ) (l : List EliteItem) :
    ∀ (seen : List ℕ) (acc : List EliteItem), acc.length < n →
    pickLoop n l seen acc = acc ++ (dedupIds seen l).take (n - acc.length) := by
  induction l with
  | nil => intro seen acc h; simp [pickLoop, dedupIds]
  | cons it rest ih =>
    intro seen acc h
    by_cases hm : it.id ∈ seen
    · rw [show pickLoop n (it :: rest) seen acc = pickLoop n rest seen acc from
        by simp [pickLoop, hm]]
      rw [ih seen acc h]
      simp [dedupIds, hm]
    · by_cases hstop : n ≤ acc.length + 1
      · have hn : n - acc.length = 1 := by omega
        rw [show pickLoop n (it :: rest) seen acc = acc ++ [it] from
          by simp [pickLoop, hm, hstop]]
        simp [dedupIds, hm, hn]
      · have hlt : (acc ++ [it]).length < n := by
          simp only [List.length_append, List.length_cons, List.length_nil]
          omega
        rw [show pickLoop n (it :: rest) seen acc
            = pickLoop n rest (it.id :: seen) (acc ++ [it]) from
          by simp [pickLoop, hm, hstop]]
        rw [ih (it.id :: seen) (acc ++ [it]) hlt]
        have hk : n - acc.length = (n - (acc.length + 1)) + 1 := by omega
        simp only [dedupIds, hm, if_false, List.length_append, List.length_cons,
          List.length_nil, Nat.add_zero, hk, List.take_succ_cons,
          List.append_assoc, List.singleton_append]

lemma mem_dedupIds {it : EliteItem} :
    ∀ {l : List EliteItem} {seen : List ℕ}, it ∈ dedupIds seen l → it ∈ l := by
  intro l
  induction l with
  | nil => intro seen h; simp [dedupIds] at h
  | cons x rest ih =>
    intro seen h
    by_cases hm : x.id ∈ seen
    · simp only [dedupIds, hm, if_true] at h
      exact List.mem_cons_of_mem _ (ih h)
    · simp only [dedupIds, hm, if_false] at h
      rcases List.mem_cons.mp h with h | h
      · simp [h]
      · exact List.mem_cons_of_mem _ (ih h)

lemma mem_insertLe {le} {x a : EliteItem} :
    ∀ {l}, a ∈ insertLe le x l → a = x ∨ a ∈ l := by
  intro l
  induction l with
  | nil => intro h; simpa [insertLe] using h
  | cons y ys ih =>
    intro h
    simp only [insertLe] at h
    split_ifs at h with hle
    · simpa using h
    · rcases List.mem_cons.mp h with h | h
      · right
        simp [h]
      · rcases ih h with h | h
        · left; exact h
        · right; exact List.mem_cons_of_mem _ h

lemma mem_sortStable {le} {a : EliteItem} :
    ∀ {l}, a ∈ sortStable le l → a ∈ l := by
  intro l
  induction l with
  | nil => intro h; simpa [sortStable] using h
  | cons x xs ih =>
    intro h
    rcases mem_insertLe h with h | h
    · simp [h]
    · exact List.mem_cons_of_mem _ (ih h)

lemma mergeElite_frac (f : ℚ) (pool : List EliteItem) (runs : ℕ) :
    (mergeElite f pool runs).frac = f := by
  unfold mergeElite
  split_ifs <;> rfl

lemma mergeElite_items_subset {f : ℚ} {pool : List EliteItem} {runs : ℕ}
    {it : EliteItem} (h : it ∈ (mergeElite f pool runs).items) : it ∈ pool := by
  unfold mergeElite at h
  split_ifs at h with hf
  · simp at h
  · have h1 : (1 : ℤ) ≤ max 1 (min (truncQ ((runs : ℚ) * f)) (runs : ℤ)) :=
      le_max_left _ _
    have hn : 0 < (max 1 (min (truncQ ((runs : ℚ) * f)) (runs : ℤ))).toNat := by
      omega
    dsimp only at h
    rw [pickLoop_eq ((max 1 (min (truncQ ((runs : ℚ) * f)) (runs : ℤ))).toNat)
      (sortStable eliteGe pool) [] [] (by simpa using hn)] at h
    simp only [List.nil_append, Nat.sub_zero] at h
    exact mem_sortStable (mem_dedupIds (List.take_subset _ _ h))

lemma truncQ_eq_floor (q : ℚ) (h : 0 ≤ q) : truncQ q = ⌊q⌋ := by
  unfold truncQ
  rw [Int.tdiv_eq_ediv (Rat.num_nonneg.mpr h) (by positivity), Rat.floor_def]

lemma mergeReport_ok_elite {A B : Report} {m : Merged}
    (h : mergeReport A B = .ok m) :
    (A.elite = none ∧ B.elite = none ∧ m.elite = none) ∨
    (∃ eA eB, A.elite = some eA ∧ B.elite = some eB ∧
      |eA.frac - eB.frac| ≤ 1 / 1000000000000 ∧
      m.elite = some (mergeElite eA.frac
        (eA.items ++ eB.items.map (offsetItem A.runs)) (A.runs + B.runs))) ∨
    (∃ eA, A.elite = some eA ∧ B.elite = none ∧
      m.elite = some (mergeElite eA.frac eA.items (A.runs + B.runs))) ∨
    (∃ eB, A.elite = none ∧ B.elite = some eB ∧
      m.elite = some (mergeElite eB.frac
        (eB.items.map (offsetItem A.runs)) (A.runs + B.runs))) := by
  have h0 := mergeReport_ok_runs_ne h
  obtain ⟨sd, hsd⟩ :=
    combine_std_isSome A.mean A.std B.mean B.std A.runs B.runs h0
  rw [mergeReport_eq A B h0 sd hsd] at h
  rcases hEA : A.elite with _ | eA <;> rcases hEB : B.elite with _ | eB <;>
    simp only [hEA, hEB] at h
  · left
    rw [Except.ok.injEq] at h
    subst h
    exact ⟨rfl, rfl, rfl⟩
  · right; right; right
    rw [Except.ok.injEq] at h
    subst h
    exact ⟨eB, rfl, rfl, rfl⟩
  · right; right; left
    rw [Except.ok.injEq] at h
    subst h
    exact ⟨eA, rfl, rfl, rfl⟩
  · right; left
    by_cases hf : |eA.frac - eB.frac| > 1 / 1000000000000
    · rw [if_pos hf] at h
      exact absurd h (by simp)
    · rw [if_neg hf, Except.ok.injEq] at h
      subst h
      exact ⟨eA, eB, rfl, rfl, le_of_not_lt hf, rfl⟩

lemma valid_elite_of_mem {r : Report} {e : Elite} (hr : Valid r)
    (he : r.elite = some e) : ValidElite r.runs e :=
  hr.2.2.2.2.2.2.2.2 e (by simp [he, Option.mem_def])

lemma mergeElite_items_zero (f : ℚ) (pool : List EliteItem) (runs : ℕ)
    (hf : f = 0) : (mergeElite f pool runs).items = [] := by
  unfold mergeElite
  rw [if_pos hf]

lemma mergeElite_items_spec (f : ℚ) (pool : List EliteItem) (runs : ℕ)
    (hf : f ≠ 0) (hf0 : 0 ≤ f) :
    (mergeElite f pool runs).items =
      (dedupIds [] (sortStable eliteGe pool)).take
        ((max 1 (min ⌊(runs : ℚ) * f⌋ (runs : ℤ))).toNat) := by
  unfold mergeElite
  rw [if_neg hf]
  dsimp only
  rw [truncQ_eq_floor _ (mul_nonneg (by positivity) hf0)]
  have h1 : (1 : ℤ) ≤ max 1 (min ⌊(runs : ℚ) * f⌋ (runs : ℤ)) := le_max_left _ _
  rw [pickLoop_eq _ (sortStable eliteGe pool) [] []
    (by simp only [List.length_nil]; omega)]
  simp

lemma merge_ex2 : mergeReport exEA exEB = .ok exME := by
  have hsd : combine_std exEA.mean exEA.std exEA.runs exEB.mean exEB.std exEB.runs
      = some (Real.sqrt ((0 : ℚ) : ℝ)) := by
    norm_num [combine_std, combine_mean, exEA, exEB]
  rw [mergeReport_eq exEA exEB (by decide) _ hsd]
  show (if |(1/2 : ℚ) - 1/2| > 1 / 1000000000000 then _ else _) = _
  rw [if_neg (by norm_num)]
  refine congrArg Except.ok ?_
  show { mergeBase exEA exEB (Real.sqrt ((0 : ℚ) : ℝ)) with
    elite := some (mergeElite (1/2) ([⟨0, some 10, none⟩] ++
      List.map (offsetItem 2) [⟨0, some 20, none⟩]) 4) } = exME
  unfold exME
  refine congrArg _ ?_
  refine congrArg some ?_
  have hfrac : (1/2 : ℚ) ≠ 0 := by norm_num
  have hfloor : truncQ (((4:ℕ) : ℚ) * (1/2)) = 2 := by
    rw [truncQ_eq_floor _ (by norm_num)]
    norm_num
  unfold mergeElite
  rw [if_neg hfrac]
  dsimp only
  rw [hfloor]
  congr 1

lemma valid_exEA : Valid exEA := by
  refine ⟨by decide, by decide, by decide, by decide, by decide, by decide,
    by decide, by decide, ?_⟩
  intro e he
  simp only [exEA, Option.mem_def, Option.some.injEq] at he
  subst he
  refine ⟨by norm_num, by norm_num, ?_, by simp⟩
  intro it hit
  simp only [List.mem_singleton] at hit
  subst hit
  decide

lemma valid_exEB : Valid exEB := by
  refine ⟨by decide, by decide, by decide, by decide, by decide, by decide,
    by decide, by decide, ?_⟩
  intro e he
  simp only [exEB, Option.mem_def, Option.some.injEq] at he
  subst he
  refine ⟨by norm_num, by norm_num, ?_, by simp⟩
  intro it hit
  simp only [List.mem_singleton] at hit
  subst hit
  decide

/-! ## Claim C1 -/
/-- C1: signing is self-consistent.  For every document, the signer renders
the document with the checksum node holding the 8-character all-zero
placeholder, computes the CRC-32 over the UTF-8 bytes of that exact
rendering, and stores its 8-hex-digit uppercase rendering; consequently,
taking the signed output and recomputing the CRC over the document with its
checksum reset to eight zeros reproduces the stored checksum, which is 8
characters long. -/
theorem C1_signing_self_consistent (d : XmlDoc) :
    (embed_xml_signature d).checksum =
      compute_crc32 (XmlDoc.tostring
        { embed_xml_signature d with checksum := zeros8 }) ∧
    (embed_xml_signature d).checksum =
      toHex8 (crc32 (utf8Bytes (XmlDoc.tostring { d with checksum := zeros8 }))) ∧
    (embed_xml_signature d).checksum.length = CHECKSUM_LENGTH := by
  refine ⟨rfl, rfl, ?_⟩
  simp [embed_xml_signature, compute_crc32, toHex8_length]

/-! ## Claim C2 -/
/-- C2: `combine_std` fails (returns no value) when the total count is 0,
returns exactly 0 when the total count is 1, and for total count at least 2
returns the square root of
`(max(n1-1,0) s1^2 + max(n2-1,0) s2^2 + n1 (m1-M)^2 + n2 (m2-M)^2) / (N-1)`
where `M` is the pooled mean. -/
theorem C2_combine_std_spec (m1 s1 m2 s2 : ℚ) (n1 n2 : ℕ) :
    (n1 + n2 = 0 → combine_std m1 s1 n1 m2 s2 n2 = none) ∧
    (n1 + n2 = 1 → combine_std m1 s1 n1 m2 s2 n2 = some 0) ∧
    (2 ≤ n1 + n2 →
      combine_std m1 s1 n1 m2 s2 n2 =
        some (Real.sqrt
          ((((max (n1 - 1) 0 : ℕ) * (s1 * s1) + (max (n2 - 1) 0 : ℕ) * (s2 * s2)
              + n1 * (m1 - (n1 * m1 + n2 * m2) / (n1 + n2 : ℕ)) ^ 2
              + n2 * (m2 - (n1 * m1 + n2 * m2) / (n1 + n2 : ℕ)) ^ 2)
            / ((n1 + n2 - 1 : ℕ) : ℚ) : ℚ) : ℝ))) := by
  refine ⟨fun h => by simp [combine_std, h], fun h => by simp [combine_std, h], ?_⟩
  intro h
  have h0 : n1 + n2 ≠ 0 := by omega
  have h1 : n1 + n2 ≠ 1 := by omega
  simp only [combine_std, h0, h1, if_false,
    combine_mean_pos m1 m2 n1 n2 h0, Nat.max_eq_left (Nat.zero_le _)]

/-- Witness for C2: at `n1 = n2 = 1` (total count 2) with all statistics 0,
the hypotheses of the three branches are checked concretely and the pooled
standard deviation is the square root of the stated quotient. -/
theorem C2_witness :
    (2 : ℕ) ≤ 1 + 1 ∧
    combine_std (0 : ℚ) 0 1 0 0 1 =
      some (Real.sqrt
        ((((max (1 - 1) 0 : ℕ) * ((0 : ℚ) * 0) + (max (1 - 1) 0 : ℕ) * ((0 : ℚ) * 0)
            + (1 : ℕ) * ((0 : ℚ) - ((1 : ℕ) * 0 + (1 : ℕ) * 0) / ((1 + 1 : ℕ) : ℚ)) ^ 2
            + (1 : ℕ) * ((0 : ℚ) - ((1 : ℕ) * 0 + (1 : ℕ) * 0) / ((1 + 1 : ℕ) : ℚ)) ^ 2)
          / ((1 + 1 - 1 : ℕ) : ℚ) : ℚ) : ℝ)) :=
  ⟨by norm_num, (C2_combine_std_spec 0 0 0 0 1 1).2.2 (by norm_num)⟩

/-! ## Claim C3 -/
/-- C3: best selection.  If `A.best_fitness ≥ B.best_fitness` the merged best
record is A's, all four fields unchanged; otherwise it is B's record with its
run index offset by `A.runs`. -/
theorem C3_best_selection (A B : Report) (hA : Valid A) (hB : Valid B)
    (m : Merged) (h : mergeReport A B = .ok m) :
    (B.best_fitness ≤ A.best_fitness →
      m.best_fitness = A.best_fitness ∧ m.best_accuracy = A.best_accuracy ∧
      m.best_run = A.best_run ∧ m.best_code = A.best_code) ∧
    (A.best_fitness < B.best_fitness →
      m.best_fitness = B.best_fitness ∧ m.best_accuracy = B.best_accuracy ∧
      m.best_run = B.best_run + A.runs ∧ m.best_code = B.best_code) := by
  obtain ⟨sd, hsd, hruns, hel, hsol, hbf, hba, hbr, hbc⟩ := mergeReport_ok_base h
  constructor
  · intro hle
    rw [hbf, hba, hbr, hbc]
    simp [if_pos hle]
  · intro hlt
    have hn : ¬ B.best_fitness ≤ A.best_fitness := not_le.mpr hlt
    rw [hbf, hba, hbr, hbc]
    simp [if_neg hn]

/-- Witness for C3: the spec's own example, `A.best_fitness = 5` (run 3 of
10) against `B.best_fitness = 8` (run 2 of 5); the merged best is B's record
with run index `2 + 10 = 12`. -/
theorem C3_witness :
    Valid exA ∧ Valid exB ∧ mergeReport exA exB = .ok exM1 ∧
    exA.best_fitness < exB.best_fitness ∧
    (exM1.best_fitness = exB.best_fitness ∧
     exM1.best_accuracy = exB.best_accuracy ∧
     exM1.best_run = exB.best_run + exA.runs ∧
     exM1.best_code = exB.best_code) ∧
    exB.best_run + exA.runs = 12 :=
  ⟨valid_exA, valid_exB, merge_ex1, by decide,
   (C3_best_selection exA exB valid_exA valid_exB exM1 merge_ex1).2 (by decide),
   by decide⟩

/-! ## Claim C7 -/
/-- C7: the merged `solutions` list is A's solution indices followed by B's
solution indices each increased by `A.runs`, in that order, with no
deduplication. -/
theorem C7_solutions_concat (A B : Report) (hA : Valid A) (hB : Valid B)
    (m : Merged) (h : mergeReport A B = .ok m) :
    m.solutions = A.solutions ++ B.solutions.map (· + A.runs) :=
  (mergeReport_ok_base h).choose_spec.2.2.2.1

/-- Witness for C7 at the concrete pair: `[0, 4]` and `[1]` with offset 10
merge to `[0, 4, 11]`. -/
theorem C7_witness :
    Valid exA ∧ Valid exB ∧ mergeReport exA exB = .ok exM1 ∧
    exM1.solutions = exA.solutions ++ exB.solutions.map (· + exA.runs) ∧
    exA.solutions ++ exB.solutions.map (· + exA.runs) = [0, 4, 11] :=
  ⟨valid_exA, valid_exB, merge_ex1,
   C7_solutions_concat exA exB valid_exA valid_exB exM1 merge_ex1, by decide⟩

/-! ## Claim C8 -/
/-- C8: the merged run count is the sum of the two input run counts. -/
theorem C8_runs_sum (A B : Report) (hA : Valid A) (hB : Valid B)
    (m : Merged) (h : mergeReport A B = .ok m) :
    m.runs = A.runs + B.runs :=
  (mergeReport_ok_base h).choose_spec.2.1

/-- Witness for C8: merging the 10-run and 5-run example reports yields
run count 15. -/
theorem C8_witness :
    Valid exA ∧ Valid exB ∧ mergeReport exA exB = .ok exM1 ∧
    exM1.runs = exA.runs + exB.runs ∧ exA.runs + exB.runs = 15 :=
  ⟨valid_exA, valid_exB, merge_ex1,
   C8_runs_sum exA exB valid_exA valid_exB exM1 merge_ex1, by decide⟩

/-! ## Claim C10 -/
/-- C10: the merged elapsed time is the sum of the two input elapsed times. -/
theorem C10_elapsed_sum (A B : Report) (hA : Valid A) (hB : Valid B)
    (m : Merged) (h : mergeReport A B = .ok m) :
    m.elapsed = A.elapsed + B.elapsed :=
  (mergeReport_ok_base h).choose_spec.2.2.1

/-- Witness for C10: elapsed times 3 and 4 merge to 7. -/
theorem C10_witness :
    Valid exA ∧ Valid exB ∧ mergeReport exA exB = .ok exM1 ∧
    exM1.elapsed = exA.elapsed + exB.elapsed ∧ exA.elapsed + exB.elapsed = 7 :=
  ⟨valid_exA, valid_exB, merge_ex1,
   C10_elapsed_sum exA exB valid_exA valid_exB exM1 merge_ex1, by decide⟩

/-! ## Claim C5 -/
/-- C5: when both inputs carry an elite block, merging fails with the elite
percentile mismatch error exactly when the two fractions differ by more than
`1e-12` (and then no merged value is produced, so no output file is written);
when they differ by at most `1e-12` the merge succeeds. -/
theorem C5_percentile_conflict (A B : Report) (hA : Valid A) (hB : Valid B)
    (eA eB : Elite) (hEA : A.elite = some eA) (hEB : B.elite = some eB) :
    (|eA.frac - eB.frac| > 1 / 1000000000000 →
      mergeReport A B = .error ("Elite percentile mismatch: " ++ toString eA.frac
        ++ " vs " ++ toString eB.frac)) ∧
    (|eA.frac - eB.frac| ≤ 1 / 1000000000000 →
      ∃ m, mergeReport A B = .ok m) := by
  have h0 : A.runs + B.runs ≠ 0 := by
    have := hA.1
    omega
  obtain ⟨sd, hsd⟩ :=
    combine_std_isSome A.mean A.std B.mean B.std A.runs B.runs h0
  rw [mergeReport_eq A B h0 sd hsd]
  simp only [hEA, hEB]
  constructor
  · intro hf
    rw [if_pos hf]
  · intro hle
    rw [if_neg (by simpa using hle)]
    exact ⟨_, rfl⟩

/-- Witness for C5: fractions `0.05` and `0.10` differ by more than `1e-12`,
so the merge of these two otherwise-valid reports is the mismatch error. -/
theorem C5_witness :
    Valid exMA ∧ Valid exMB ∧
    exMA.elite = some ⟨1/20, []⟩ ∧ exMB.elite = some ⟨1/10, []⟩ ∧
    |(1/20 : ℚ) - 1/10| > 1 / 1000000000000 ∧
    mergeReport exMA exMB = .error ("Elite percentile mismatch: "
      ++ toString ((1 : ℚ)/20) ++ " vs " ++ toString ((1 : ℚ)/10)) :=
  ⟨valid_exMA, valid_exMB, rfl, rfl, abs_ex_fracs,
   (C5_percentile_conflict exMA exMB valid_exMA valid_exMB
      ⟨1/20, []⟩ ⟨1/10, []⟩ rfl rfl).1 abs_ex_fracs⟩

/-! ## Claim C9 -/
/-- C9: an input whose success rate is a number outside `[0, 1]` never
parses: `parse_ultra_file` fails, the whole merge pipeline fails (so nothing
is written to the output path), and — once the earlier runs/elapsed checks
pass — the error is exactly the range message naming the file and the
`success_rate` field. -/
theorem C9_success_rate_range (f1 f2 : String) (r1 r2 : RawReport)
    (hbad : ¬ (0 ≤ r1.success ∧ r1.success ≤ 1)) :
    (parse_ultra_file f1 r1).isOk = false ∧
    (merge_ultra_files f1 r1 f2 r2).isOk = false ∧
    (0 < r1.runs → 0 ≤ r1.elapsed →
      parse_ultra_file f1 r1 =
        .error (f1 ++ ": success_rate out of range: " ++ toString r1.success) ∧
      merge_ultra_files f1 r1 f2 r2 =
        .error (f1 ++ ": success_rate out of range: " ++ toString r1.success)) := by
  have hparse : (parse_ultra_file f1 r1).isOk = false := by
    unfold parse_ultra_file
    by_cases h1 : r1.runs ≤ 0
    · simp [h1, Except.isOk, Except.toBool]
    · by_cases h2 : r1.elapsed < 0
      · simp [h1, h2, Except.isOk, Except.toBool]
      · simp [h1, h2, hbad, Except.isOk, Except.toBool]
  refine ⟨hparse, ?_, ?_⟩
  · cases hp : parse_ultra_file f1 r1 with
    | error e => simp [merge_ultra_files, hp, Except.isOk, Except.toBool]
    | ok A => rw [hp] at hparse; simp [Except.isOk, Except.toBool] at hparse
  · intro hruns helapsed
    have hp : parse_ultra_file f1 r1 =
        .error (f1 ++ ": success_rate out of range: " ++ toString r1.success) := by
      unfold parse_ultra_file
      rw [if_neg (by omega), if_neg (by omega), if_pos hbad]
    exact ⟨hp, by simp [merge_ultra_files, hp]⟩

/-- Witness for C9: `success_rate = 1.5` makes parsing and the whole merge
pipeline fail with the range error naming file `a.xml` and the field. -/
theorem C9_witness :
    ¬ (0 ≤ exRawBad.success ∧ exRawBad.success ≤ 1) ∧
    (parse_ultra_file "a.xml" exRawBad).isOk = false ∧
    (merge_ultra_files "a.xml" exRawBad "b.xml" exRawGood).isOk = false ∧
    (parse_ultra_file "a.xml" exRawBad =
      .error ("a.xml" ++ ": success_rate out of range: " ++ toString exRawBad.success) ∧
     merge_ultra_files "a.xml" exRawBad "b.xml" exRawGood =
      .error ("a.xml" ++ ": success_rate out of range: " ++ toString exRawBad.success)) := by
  have hbad : ¬ (0 ≤ exRawBad.success ∧ exRawBad.success ≤ 1) := by norm_num [exRawBad]
  obtain ⟨h1, h2, h3⟩ :=
    C9_success_rate_range "a.xml" "b.xml" exRawBad exRawGood hbad
  exact ⟨hbad, h1, h2, h3 (by decide) (by decide)⟩

/-! ## Claim C6 -/
/-- C6: re-indexing invariant.  In the merged report every solution run
index, and every elite item id, is strictly below the merged run count
(non-negativity is inherent in the `ℕ` index type produced by
validation). -/
theorem C6_reindex_invariant (A B : Report) (hA : Valid A) (hB : Valid B)
    (m : Merged) (h : mergeReport A B = .ok m) :
    (∀ s ∈ m.solutions, s < m.runs) ∧
    (∀ e ∈ m.elite, ∀ it ∈ e.items, it.id < m.runs) := by
  obtain ⟨sd, hsd, hruns, hel, hsol, _, _, _, _⟩ := mergeReport_ok_base h
  constructor
  · intro s hs
    rw [hsol] at hs
    rw [hruns]
    rcases List.mem_append.mp hs with hs | hs
    · have := hA.2.2.2.2.2.2.1 s hs
      omega
    · obtain ⟨t, ht, rfl⟩ := List.mem_map.mp hs
      have := hB.2.2.2.2.2.2.1 t ht
      omega
  · intro e he it hit
    rw [hruns]
    rcases mergeReport_ok_elite h with ⟨_, _, hm⟩ |
      ⟨eA, eB, hEA, hEB, _, hm⟩ | ⟨eA, hEA, hEB, hm⟩ | ⟨eB, hEA, hEB, hm⟩
    · rw [hm] at he
      simp at he
    · rw [hm] at he
      simp only [Option.mem_def, Option.some.injEq] at he
      subst he
      have hpool := mergeElite_items_subset hit
      rcases List.mem_append.mp hpool with hp | hp
      · have := (valid_elite_of_mem hA hEA).2.2.1 it hp
        omega
      · obtain ⟨jt, hjt, rfl⟩ := List.mem_map.mp hp
        have := (valid_elite_of_mem hB hEB).2.2.1 jt hjt
        simp only [offsetItem]
        omega
    · rw [hm] at he
      simp only [Option.mem_def, Option.some.injEq] at he
      subst he
      have hpool := mergeElite_items_subset hit
      have := (valid_elite_of_mem hA hEA).2.2.1 it hpool
      omega
    · rw [hm] at he
      simp only [Option.mem_def, Option.some.injEq] at he
      subst he
      have hpool := mergeElite_items_subset hit
      obtain ⟨jt, hjt, rfl⟩ := List.mem_map.mp hpool
      have := (valid_elite_of_mem hB hEB).2.2.1 jt hjt
      simp only [offsetItem]
      omega

/-! ## Claim C4 -/
/-- C4: elite selection.  When the merged report carries an elite block
with fraction `f`, its item list is empty if `f = 0`; otherwise it consists
of the first `clamp(floor(f * merged_runs), 1, merged_runs)` unique-by-id
items of the candidate pool (A's elite items followed by B's elite items
with ids offset by `A.runs`) sorted descending by the lexicographic
(fitness, accuracy) key in which a missing value counts as minus
infinity. -/
theorem C4_elite_selection (A B : Report) (hA : Valid A) (hB : Valid B)
    (m : Merged) (h : mergeReport A B = .ok m) (e : Elite)
    (he : m.elite = some e) :
    (e.frac = 0 → e.items = []) ∧
    (e.frac ≠ 0 → e.items =
      (dedupIds [] (sortStable eliteGe (itemsOf A.elite
        ++ (itemsOf B.elite).map (offsetItem A.runs)))).take
        ((max 1 (min ⌊(m.runs : ℚ) * e.frac⌋ (m.runs : ℤ))).toNat)) := by
  obtain ⟨sd, hsd, hruns, _⟩ := mergeReport_ok_base h
  rcases mergeReport_ok_elite h with ⟨_, _, hm⟩ |
    ⟨eA, eB, hEA, hEB, _, hm⟩ | ⟨eA, hEA, hEB, hm⟩ | ⟨eB, hEA, hEB, hm⟩
  · rw [hm] at he
    exact absurd he (by simp)
  · rw [hm, Option.some.injEq] at he
    subst he
    rw [mergeElite_frac, hruns, hEA, hEB]
    refine ⟨fun hf => mergeElite_items_zero _ _ _ hf, fun hf => ?_⟩
    rw [mergeElite_items_spec _ _ _ hf (valid_elite_of_mem hA hEA).1]
    rfl
  · rw [hm, Option.some.injEq] at he
    subst he
    rw [mergeElite_frac, hruns, hEA, hEB]
    refine ⟨fun hf => mergeElite_items_zero _ _ _ hf, fun hf => ?_⟩
    rw [mergeElite_items_spec _ _ _ hf (valid_elite_of_mem hA hEA).1]
    simp [itemsOf]
  · rw [hm, Option.some.injEq] at he
    subst he
    rw [mergeElite_frac, hruns, hEA, hEB]
    refine ⟨fun hf => mergeElite_items_zero _ _ _ hf, fun hf => ?_⟩
    rw [mergeElite_items_spec _ _ _ hf (valid_elite_of_mem hB hEB).1]
    simp [itemsOf]

/-- Witness for C4: the spec's elite scenario.  Two 2-run reports, both at
fraction 1/2, elite items (id 0, fitness 10) and (id 0, fitness 20): the
merged elite holds B's item offset to id 2 first, then A's item, which is
exactly the first 2 unique-by-id entries of the descending-sorted pool. -/
theorem C4_witness :
    Valid exEA ∧ Valid exEB ∧ mergeReport exEA exEB = .ok exME ∧
    exME.elite = some ⟨1/2, [⟨2, some 20, none⟩, ⟨0, some 10, none⟩]⟩ ∧
    ((1/2 : ℚ) ≠ 0) ∧
    ([⟨2, some 20, none⟩, ⟨0, some 10, none⟩] : List EliteItem) =
      (dedupIds [] (sortStable eliteGe (itemsOf exEA.elite
        ++ (itemsOf exEB.elite).map (offsetItem exEA.runs)))).take
        ((max 1 (min ⌊(exME.runs : ℚ) * (1/2 : ℚ)⌋ (exME.runs : ℤ))).toNat) :=
  ⟨valid_exEA, valid_exEB, merge_ex2, rfl, by norm_num,
   (C4_elite_selection exEA exEB valid_exEA valid_exEB exME merge_ex2
      ⟨1/2, [⟨2, some 20, none⟩, ⟨0, some 10, none⟩]⟩ rfl).2 (by norm_num)⟩

/-- Witness for C6: in the merged elite example, the merged run count is 4,
solution index 3 (B's run 1 offset by 2) is below it, and both elite ids
(2 and 0) are below it. -/
theorem C6_witness :
    Valid exEA ∧ Valid exEB ∧ mergeReport exEA exEB = .ok exME ∧
    (3 : ℕ) < exME.runs ∧
    (⟨2, some 20, none⟩ : EliteItem).id < exME.runs ∧
    (⟨0, some 10, none⟩ : EliteItem).id < exME.runs :=
  ⟨valid_exEA, valid_exEB, merge_ex2,
   (C6_reindex_invariant exEA exEB valid_exEA valid_exEB exME merge_ex2).1
     3 (by decide),
   (C6_reindex_invariant exEA exEB valid_exEA valid_exEB exME merge_ex2).2
     ⟨1/2, [⟨2, some 20, none⟩, ⟨0, some 10, none⟩]⟩ rfl
     ⟨2, some 20, none⟩ (by decide),
   (C6_reindex_invariant exEA exEB valid_exEA valid_exEB exME merge_ex2).2
     ⟨1/2, [⟨2, some 20, none⟩, ⟨0, some 10, none⟩]⟩ rfl
     ⟨0, some 10, none⟩ (by decide)⟩
